import Mathlib

/-!
Verification development for the Threat-Detection backend.

This file is a shallow embedding of the Python sources under
`threat-bakend/`:

* `mongodb.py` — the unified `detections` collection with its unique
  index on `unique_object_id`;
* `image_storage.py` — `store_image` (blob write + dedup insert);
* `routes/upload.py` — the `upload_detection` ingestion handler;
* `routes/system.py` — the heartbeat state (`update_frame_timestamp`,
  `get_system_status`, `update_heartbeat`);
* `routes/detections.py` — `get_detections`, `get_detection_stats`,
  `get_alerts` (the deduplicated query layer);
* `routes/websocket.py` — `ConnectionManager.disconnect` and
  `ConnectionManager.broadcast`.

Machine-level conventions: image bytes are `List Nat`; the uploads
directory is an association list from file path to contents; MongoDB
`ObjectId`s are `Nat`; Python `datetime` values are opaque tokens
(`Nat` for sortable timestamps, `String` for ISO strings); a Python
exception is the `Except.error` branch carrying its message.
Nondeterministic environment facts (the generated filename token, the
clock, filesystem success, a concurrent insert landing between the
duplicate pre-check and `insert_one`) are passed explicitly in a
`StoreEnv` record.
-/

namespace ThreatApp

/-! ### Blob storage: the `uploads/` directory -/

/-- Raw image bytes, exactly as received. -/
abbrev Bytes := List Nat

/-- The uploads directory: file path ↦ file contents. -/
abbrev FS := List (String × Bytes)

/-- `open(filepath, 'wb'); f.write(image_bytes)`: create or overwrite. -/
def fsWrite (fs : FS) (path : String) (b : Bytes) : FS :=
  fs.filter (fun e => e.1 != path) ++ [(path, b)]

/-- Reading a file back from the uploads directory. -/
def fsRead (fs : FS) (path : String) : Option Bytes :=
  (fs.find? (fun e => e.1 == path)).map Prod.snd

/-- `os.remove(filepath)` on a path we just wrote (the file exists, so
the removal succeeds). -/
def fsRemove (fs : FS) (path : String) : FS :=
  fs.filter (fun e => e.1 != path)

/-! ### `mongodb.py`: the unified detections collection -/

/-- One document of the `detections` collection, with the fields
`store_image` puts in it.  Note that the `**metadata` merge in
`image_storage.py` lets the metadata key `"filename"` (the original
upload filename set in `routes/upload.py`) overwrite the generated
blob filename, so `filename` here holds the caller's original name
while `filepath` holds the blob location. -/
structure DetectionDoc where
  docId : Nat
  image_url : String
  filename : String
  filepath : String
  object_type : String
  category : String
  threat_level : String
  timestamp : Nat
  camera_id : String
  unique_object_id : String
  content_type : String
  file_size : Nat
  confidence : Option Int
  location : Option String
deriving DecidableEq, Repr

/-- The `detections` collection: its documents, plus whether the
MongoDB server is reachable (`reachable = false` makes every driver
call raise, modelling a connection failure). -/
structure Collection where
  reachable : Bool
  docs : List DetectionDoc
deriving DecidableEq, Repr

/-- `collection.find_one({"unique_object_id": uid})`. -/
def Collection.find_one (c : Collection) (uid : String) :
    Except String (Option DetectionDoc) :=
  if c.reachable then
    .ok (c.docs.find? (fun d => d.unique_object_id == uid))
  else
    .error "ConnectionFailure"

/-- Result of `collection.insert_one` under the unique index
`unique_object_id_index` created in `mongodb.py`. -/
inductive InsertOutcome where
  | inserted (c : Collection)
  | duplicateKey
  | connFailure (msg : String)
deriving Repr

/-- `collection.insert_one(document)`: the unique index on
`unique_object_id` rejects a document whose key is already present. -/
def Collection.insert_one (c : Collection) (d : DetectionDoc) : InsertOutcome :=
  if c.reachable then
    if c.docs.any (fun x => x.unique_object_id == d.unique_object_id) then
      .duplicateKey
    else
      .inserted { c with docs := c.docs ++ [d] }
  else
    .connFailure "ConnectionFailure"

/-- `collection.distinct("unique_object_id", query_filter)`: the
distinct key values among matching documents. -/
def Collection.distinct (c : Collection) (p : DetectionDoc → Bool) :
    Except String (List String) :=
  if c.reachable then
    .ok (((c.docs.filter p).map (fun d => d.unique_object_id)).dedup)
  else
    .error "ConnectionFailure"

/-- The document `find_one(filter, sort=[("timestamp", -1)])` returns:
the first document carrying the maximal timestamp. -/
def latestDoc : List DetectionDoc → Option DetectionDoc
  | [] => none
  | d :: rest =>
    match latestDoc rest with
    | none => some d
    | some m => if m.timestamp > d.timestamp then some m else some d

/-- `collection.find_one(filter, sort=[("timestamp", -1)])`. -/
def Collection.find_one_latest (c : Collection) (p : DetectionDoc → Bool) :
    Except String (Option DetectionDoc) :=
  if c.reachable then .ok (latestDoc (c.docs.filter p))
  else .error "ConnectionFailure"

/-! ### `image_storage.py`: `store_image` -/

def UPLOADS_DIR : String := "uploads"

def BASE_URL : String := "http://localhost:8000"

/-- The metadata dictionary `routes/upload.py` passes to `store_image`.
`filename` is the original upload filename (`image.filename`). -/
structure Metadata where
  camera_id : String
  unique_object_id : String
  filename : String
  content_type : String
  file_size : Nat
  confidence : Option Int
  location : Option String
deriving DecidableEq, Repr

/-- Environment facts one call to `store_image` observes:
`token` is the `timestamp_uuid` part of the generated filename, `now`
the clock value stored in the document, `nowIso` the ISO clock string
used by the heartbeat, `writeOk` whether the blob write succeeds,
`race` an insert by a concurrent writer landing between the duplicate
pre-check and this call's `insert_one`, and `newDocId` the `ObjectId`
MongoDB assigns on success. -/
structure StoreEnv where
  token : String
  now : Nat
  nowIso : String
  writeOk : Bool
  race : Option DetectionDoc
  newDocId : Nat
deriving DecidableEq, Repr

/-- The concurrent writer's insert (if any) applied to the collection:
it goes through the same unique index, so it only lands if its key is
fresh. -/
def applyRace (c : Collection) (race : Option DetectionDoc) : Collection :=
  match race with
  | none => c
  | some d =>
    match c.insert_one d with
    | .inserted c2 => c2
    | _ => c

/-- The dictionary `store_image` returns. -/
structure StoreResult where
  image_url : String
  filename : String
  document_id : Nat
  status : String
  message : String
deriving DecidableEq, Repr

/-- Result of one `store_image` call: its return value or raised
exception, and the collection and uploads directory afterwards. -/
structure StoreOutcome where
  result : Except String StoreResult
  coll : Option Collection
  fs : FS
deriving Repr

/-- The generated blob filename
`f"{object_type}_{category}_{timestamp}_{unique_id}.jpg"`. -/
def genFilename (object_type category token : String) : String :=
  object_type ++ "_" ++ category ++ "_" ++ token ++ ".jpg"

/-- `os.path.join(UPLOADS_DIR, filename)`. -/
def genFilepath (object_type category token : String) : String :=
  UPLOADS_DIR ++ "/" ++ genFilename object_type category token

/-- `f"{BASE_URL}/uploads/{filename}"`. -/
def genImageUrl (object_type category token : String) : String :=
  BASE_URL ++ "/uploads/" ++ genFilename object_type category token

/-- The `document` dictionary `store_image` inserts.  The `**metadata`
merge comes last, so the metadata entries (in particular `filename`,
the caller's original upload filename) overwrite the generated ones. -/
def storedDoc (object_type category threat_level : String) (md : Metadata)
    (env : StoreEnv) : DetectionDoc :=
  { docId := env.newDocId
    image_url := genImageUrl object_type category env.token
    filename := md.filename
    filepath := genFilepath object_type category env.token
    object_type := object_type
    category := category
    threat_level := threat_level
    timestamp := env.now
    camera_id := md.camera_id
    unique_object_id := md.unique_object_id
    content_type := md.content_type
    file_size := md.file_size
    confidence := md.confidence
    location := md.location }

/-- `store_image` from `image_storage.py`, translated clause by clause:
require `unique_object_id`, require the collection, duplicate
pre-check (fast path), blob write, document build (with the
`**metadata` overwrite of `filename`), `insert_one` under the unique
index, and on `DuplicateKeyError` remove the just-written blob and
answer with the now-canonical record. -/
def store_image (collOpt : Option Collection) (fs : FS) (image_bytes : Bytes)
    (object_type category threat_level : String) (metadata : Option Metadata)
    (env : StoreEnv) : StoreOutcome :=
  match metadata with
  | none => ⟨.error "unique_object_id is required in metadata", collOpt, fs⟩
  | some md =>
    if md.unique_object_id = "" then
      ⟨.error "unique_object_id is required in metadata", collOpt, fs⟩
    else
      match collOpt with
      | none => ⟨.error "Detections collection not available", none, fs⟩
      | some coll =>
        match coll.find_one md.unique_object_id with
        | .error e => ⟨.error e, some coll, fs⟩
        | .ok (some existing) =>
          ⟨.ok { image_url := existing.image_url
                 filename := existing.filename
                 document_id := existing.docId
                 status := "duplicate"
                 message := "Object " ++ md.unique_object_id ++
                   " already exists in database" },
           some coll, fs⟩
        | .ok none =>
          let filename := genFilename object_type category env.token
          let filepath := genFilepath object_type category env.token
          if env.writeOk then
            let fs1 := fsWrite fs filepath image_bytes
            let image_url := genImageUrl object_type category env.token
            let doc := storedDoc object_type category threat_level md env
            let coll1 := applyRace coll env.race
            match coll1.insert_one doc with
            | .inserted coll2 =>
              ⟨.ok { image_url := image_url
                     filename := filename
                     document_id := env.newDocId
                     status := "success"
                     message := "New detection stored successfully" },
               some coll2, fs1⟩
            | .duplicateKey =>
              let fs2 := fsRemove fs1 filepath
              match coll1.find_one md.unique_object_id with
              | .ok (some existing) =>
                ⟨.ok { image_url := existing.image_url
                       filename := existing.filename
                       document_id := existing.docId
                       status := "duplicate"
                       message := "Duplicate unique_object_id: " ++
                         md.unique_object_id },
                 some coll1, fs2⟩
              | _ => ⟨.error "AttributeError", some coll1, fs2⟩
            | .connFailure e => ⟨.error e, some coll1, fs1⟩
          else
            ⟨.error "Failed to save image file", some coll, fs⟩

/-! ### `routes/system.py`: heartbeat state -/

/-- The module-level `_system_state` dictionary. -/
structure SystemState where
  ai_running : Bool
  last_frame_time : Option String
  start_time : Nat
deriving DecidableEq, Repr

/-- `_system_state` as initialised at import time. -/
def initSystemState (start : Nat) : SystemState :=
  { ai_running := false, last_frame_time := none, start_time := start }

/-- `update_frame_timestamp()`: set `ai_running` and stamp the clock. -/
def update_frame_timestamp (nowIso : String) (s : SystemState) : SystemState :=
  { s with ai_running := true, last_frame_time := some nowIso }

/-- The body returned by `GET /system/status`. -/
structure SystemStatus where
  ai_running : Bool
  last_frame_time : Option String
  uptime_seconds : Nat
deriving DecidableEq, Repr

/-- `get_system_status()`. -/
def get_system_status (now : Nat) (s : SystemState) : SystemStatus :=
  { ai_running := s.ai_running
    last_frame_time := s.last_frame_time
    uptime_seconds := now - s.start_time }

/-- `POST /system/heartbeat`: delegates to `update_frame_timestamp`. -/
def update_heartbeat (nowIso : String) (s : SystemState) : SystemState :=
  update_frame_timestamp nowIso s

/-! ### `routes/upload.py`: the ingestion handler -/

/-- The `UploadFile` argument: original filename, declared content
type, and payload bytes. -/
structure UploadFileData where
  filename : String
  content_type : String
  payload : Bytes
deriving DecidableEq, Repr

/-- The form fields of `POST /detect/upload` once FastAPI has admitted
the request (all required fields present). -/
structure UploadRequest where
  image : UploadFileData
  object_type : String
  category : String
  threat_level : String
  camera_id : String
  unique_object_id : String
  confidence : Option Int
  location : Option String
deriving DecidableEq, Repr

/-- The `alert_data` dictionary handed to `broadcast_alert`.  The
`timestamp` entry is `metadata.get("timestamp", "")`, and the metadata
dictionary never carries that key, so it is always the empty string. -/
structure AlertData where
  object_type : String
  category : String
  threat_level : String
  camera_id : String
  unique_object_id : String
  timestamp : String
  confidence : Option Int
  location : Option String
  image_url : String
  filename : String
  document_id : Nat
deriving DecidableEq, Repr

/-- The success body of `upload_detection`. -/
structure UploadSuccess where
  status : String
  message : String
  data : StoreResult
deriving DecidableEq, Repr

/-- The HTTP-level answer of the upload endpoint: a JSON body, or an
`HTTPException` with its status code and detail. -/
inductive UploadResponse where
  | ok (body : UploadSuccess)
  | err (statusCode : Nat) (detail : String)
deriving DecidableEq, Repr

/-- Everything one call to `upload_detection` produces: the response,
the state afterwards, and the `AlertEvent`s handed to the broadcaster
(via `asyncio.create_task(broadcast_alert(...))`). -/
structure UploadOutcome where
  response : UploadResponse
  coll : Option Collection
  fs : FS
  sys : SystemState
  broadcasts : List AlertData
deriving Repr

/-- The levels that qualify for broadcast, exactly as listed in
`upload.py`: `['HIGH', 'CRITICAL', 'MEDIUM']`. -/
def qualifyingLevels : List String := ["HIGH", "CRITICAL", "MEDIUM"]

/-- `content_type.startswith("image/")`: string prefix test, written
over the character lists so that it evaluates inside the kernel. -/
def strStartsWith (s pre : String) : Bool :=
  pre.data.isPrefixOf s.data

/-- The `metadata` dictionary `upload_detection` builds for
`store_image`. -/
def uploadMetadata (req : UploadRequest) : Metadata :=
  { camera_id := req.camera_id
    unique_object_id := req.unique_object_id
    filename := req.image.filename
    content_type := req.image.content_type
    file_size := req.image.payload.length
    confidence := req.confidence
    location := req.location }

/-- `upload_detection` from `routes/upload.py`, translated clause by
clause: update the heartbeat first, validate the content type, read
the payload and reject it when empty, build the metadata dictionary,
call `store_image`, answer `409` on a duplicate, hand an alert to the
broadcaster when the level qualifies, and map any other exception to a
`500`. -/
def upload_detection (req : UploadRequest) (env : StoreEnv)
    (coll : Option Collection) (fs : FS) (sys : SystemState) : UploadOutcome :=
  let sys1 := update_frame_timestamp env.nowIso sys
  if ¬ strStartsWith req.image.content_type "image/" then
    ⟨.err 400 "File must be an image", coll, fs, sys1, []⟩
  else if req.image.payload.length = 0 then
    ⟨.err 400 "Empty image file", coll, fs, sys1, []⟩
  else
    let out := store_image coll fs req.image.payload req.object_type
      req.category req.threat_level (some (uploadMetadata req)) env
    match out.result with
    | .error e =>
      ⟨.err 500 ("Error processing upload: " ++ e), out.coll, out.fs, sys1, []⟩
    | .ok res =>
      if res.status = "duplicate" then
        ⟨.err 409 ("Duplicate detection: " ++ req.unique_object_id ++
           " already exists"), out.coll, out.fs, sys1, []⟩
      else
        let casts :=
          if req.threat_level ∈ qualifyingLevels then
            [{ object_type := req.object_type
               category := req.category
               threat_level := req.threat_level
               camera_id := req.camera_id
               unique_object_id := req.unique_object_id
               timestamp := ""
               confidence := req.confidence
               location := req.location
               image_url := res.image_url
               filename := res.filename
               document_id := res.document_id : AlertData }]
          else []
        ⟨.ok { status := "success"
               message := "Image uploaded and stored successfully"
               data := res },
         out.coll, out.fs, sys1, casts⟩

/-- The endpoint as FastAPI sees it: the route declares every form
field with `Form(...)` (required), so a request missing one of them is
answered `422 Unprocessable Entity` before the handler body runs — in
particular before `update_frame_timestamp`. -/
def upload_endpoint (image : Option UploadFileData)
    (object_type category threat_level camera_id unique_object_id : Option String)
    (confidence : Option Int) (location : Option String) (env : StoreEnv)
    (coll : Option Collection) (fs : FS) (sys : SystemState) : UploadOutcome :=
  match image, object_type, category, threat_level, camera_id, unique_object_id with
  | some img, some ot, some cat, some tl, some cid, some uid =>
    upload_detection ⟨img, ot, cat, tl, cid, uid, confidence, location⟩
      env coll fs sys
  | _, _, _, _, _, _ =>
    ⟨.err 422 "field required", coll, fs, sys, []⟩

/-! ### `routes/detections.py`: deduplicated queries -/

/-- `threat_level.upper()`. -/
def strUpper (s : String) : String := s.map Char.toUpper

/-- The `query_filter` built by `get_detections`: a filter key is added
only when the query parameter is truthy (present and non-empty). -/
def matchesFilter (object_type threat_level : Option String)
    (d : DetectionDoc) : Bool :=
  (match object_type with
   | none => true
   | some s => if s = "" then true else d.object_type == s) &&
  (match threat_level with
   | none => true
   | some s => if s = "" then true else d.threat_level == strUpper s)

/-- The body returned by `GET /detections`. -/
structure DetectionsResponse where
  detections : List DetectionDoc
  total : Nat
  error : Option String
deriving DecidableEq, Repr

/-- The per-key fetch loop shared by `get_detections` and `get_alerts`:
for each selected key run `find_one(filter + key, sort timestamp desc)`,
append the document when one is found, skip a `None`; a raised storage
error propagates to the surrounding `try`. -/
def fetchLoop (c : Collection) (q : String → DetectionDoc → Bool) :
    List String → List DetectionDoc → Except String (List DetectionDoc)
  | [], acc => .ok acc
  | uid :: rest, acc =>
    match c.find_one_latest (q uid) with
    | .error e => .error e
    | .ok (some d) => fetchLoop c q rest (acc ++ [d])
    | .ok none => fetchLoop c q rest acc

/-- The loop of `get_detections` inside the `try`: distinct keys,
page slice, one latest-by-timestamp `find_one` per selected key. -/
def get_detections_core (c : Collection) (object_type threat_level : Option String)
    (limit skip : Nat) : Except String (List DetectionDoc × Nat) := do
  let uids ← c.distinct (matchesFilter object_type threat_level)
  let page := (uids.drop skip).take limit
  let dets ← fetchLoop c (fun uid d =>
    matchesFilter object_type threat_level d && d.unique_object_id == uid)
    page []
  pure (dets, uids.length)

/-- `GET /detections`: unavailable collection and raised storage errors
are both answered with an empty body carrying an `error` message. -/
def get_detections (collOpt : Option Collection)
    (object_type threat_level : Option String) (limit skip : Nat) :
    DetectionsResponse :=
  match collOpt with
  | none => ⟨[], 0, some "Database not available"⟩
  | some c =>
    match get_detections_core c object_type threat_level limit skip with
    | .error e => ⟨[], 0, some e⟩
    | .ok (dets, total) => ⟨dets, total, none⟩

/-- The body returned by `GET /detections/stats` (the nested `by_type`
and `by_threat_level` dictionaries repeat the same numbers). -/
structure StatsResponse where
  total : Nat
  persons : Nat
  weapons : Nat
  bags : Nat
  objects : Nat
  safe : Nat
  medium : Nat
  high : Nat
  critical : Nat
  error : Option String
deriving DecidableEq, Repr

/-- The distinct-key counts inside the `try` of `get_detection_stats`. -/
def get_detection_stats_core (c : Collection) : Except String StatsResponse := do
  let total ← (c.distinct (fun _ => true)).map List.length
  let persons ← (c.distinct (fun d => d.object_type == "person")).map List.length
  let weapons ← (c.distinct (fun d => d.object_type == "weapon")).map List.length
  let bags ← (c.distinct (fun d => d.object_type == "bag")).map List.length
  let objects ← (c.distinct (fun d => d.object_type == "object")).map List.length
  let safe ← (c.distinct (fun d => d.threat_level == "SAFE")).map List.length
  let medium ← (c.distinct (fun d => d.threat_level == "MEDIUM")).map List.length
  let high ← (c.distinct (fun d => d.threat_level == "HIGH")).map List.length
  let critical ← (c.distinct (fun d => d.threat_level == "CRITICAL")).map List.length
  pure ⟨total, persons, weapons, bags, objects, safe, medium, high, critical, none⟩

/-- `GET /detections/stats`. -/
def get_detection_stats (collOpt : Option Collection) : StatsResponse :=
  match collOpt with
  | none => ⟨0, 0, 0, 0, 0, 0, 0, 0, 0, some "Database not available"⟩
  | some c =>
    match get_detection_stats_core c with
    | .error e => ⟨0, 0, 0, 0, 0, 0, 0, 0, 0, some e⟩
    | .ok r => r

/-- The implicit filter of `GET /alerts`:
`threat_level ∈ {MEDIUM, HIGH, CRITICAL}`. -/
def alertsFilter (d : DetectionDoc) : Bool :=
  (["MEDIUM", "HIGH", "CRITICAL"] : List String).contains d.threat_level

/-- The body returned by `GET /alerts`. -/
structure AlertsResponse where
  alerts : List DetectionDoc
  total : Nat
  error : Option String
deriving DecidableEq, Repr

/-- The loop of `get_alerts` inside the `try`. -/
def get_alerts_core (c : Collection) (limit skip : Nat) :
    Except String (List DetectionDoc × Nat) := do
  let uids ← c.distinct alertsFilter
  let page := (uids.drop skip).take limit
  let dets ← fetchLoop c (fun uid d => alertsFilter d && d.unique_object_id == uid)
    page []
  pure (dets, uids.length)

/-- `GET /alerts` from `routes/detections.py`. -/
def get_alerts (collOpt : Option Collection) (limit skip : Nat) : AlertsResponse :=
  match collOpt with
  | none => ⟨[], 0, some "Database not available"⟩
  | some c =>
    match get_alerts_core c limit skip with
    | .error e => ⟨[], 0, some e⟩
    | .ok (dets, total) => ⟨dets, total, none⟩

/-! ### `routes/websocket.py`: the connection manager -/

namespace ConnectionManager

variable {C : Type} [DecidableEq C]

/-- `disconnect`: `self.active_connections.remove(websocket)`.  Python's
`list.remove` raises `ValueError` when the element is absent. -/
def disconnect (live : List C) (ws : C) : Except String (List C) :=
  if ws ∈ live then .ok (live.erase ws)
  else .error "list.remove(x): x not in list"

/-- The send loop of `broadcast`: for each connection in order, attempt
`send_json`; on failure append the connection to `disconnected`.
Returns (connections the message reached, failed connections). -/
def sendPass (fails : C → Bool) : List C → List C × List C
  | [] => ([], [])
  | c :: rest =>
    let p := sendPass fails rest
    if fails c then (p.1, c :: p.2) else (c :: p.1, p.2)

/-- The prune loop of `broadcast`: remove each failed connection from
the live list, guarded by a membership test. -/
def prune (live : List C) (disconnected : List C) : List C :=
  disconnected.foldl (fun l c => if c ∈ l then l.erase c else l) live

/-- `broadcast(message)`: deliver to every live connection, then prune
the ones whose send failed.  `fails c` says whether `send_json` raises
on channel `c` during this pass.  Returns (channels the message
reached, the live list afterwards). -/
def broadcast (live : List C) (fails : C → Bool) : List C × List C :=
  let p := sendPass fails live
  (p.1, prune live p.2)

end ConnectionManager

/-! ### The core operations as one state machine -/

/-- The state the core operations touch: the detections collection,
the uploads directory, and the heartbeat state. -/
structure AppState where
  coll : Option Collection
  fs : FS
  sys : SystemState
deriving Repr

/-- One invocation of a core operation, with the environment facts it
observes. -/
inductive CoreOp where
  | upload (req : UploadRequest) (env : StoreEnv)
  | heartbeat (nowIso : String)
  | statusQuery (now : Nat)
  | listDetections (object_type threat_level : Option String) (limit skip : Nat)
  | statsQuery
  | alertsQuery (limit skip : Nat)

/-- The state transition of each core operation.  The query routes and
the status route only read: they leave the state untouched by
construction, exactly as the Python handlers never write to the
collection, the uploads directory, or `_system_state`. -/
def CoreOp.apply : CoreOp → AppState → AppState
  | .upload req env, s =>
    let o := upload_detection req env s.coll s.fs s.sys
    ⟨o.coll, o.fs, o.sys⟩
  | .heartbeat nowIso, s => { s with sys := update_heartbeat nowIso s.sys }
  | .statusQuery _, s => s
  | .listDetections _ _ _ _, s => s
  | .statsQuery, s => s
  | .alertsQuery _ _, s => s

/-- A whole process lifetime: a sequence of core operations. -/
def applyOps (ops : List CoreOp) (s : AppState) : AppState :=
  ops.foldl (fun st op => op.apply st) s

/-- The one-record-per-key invariant: the stored documents carry
pairwise distinct `unique_object_id`s. -/
def UidsNodup (c : Collection) : Prop :=
  (c.docs.map (fun d => d.unique_object_id)).Nodup

/-- Key freshness: `d`'s `unique_object_id` differs from that of every
document already in `l`. -/
def freshKey (l : List DetectionDoc) (d : DetectionDoc) : Prop :=
  ∀ x ∈ l, x.unique_object_id ≠ d.unique_object_id

/-- The broadcast discipline claimed for the ingestion handler: an
alert is handed over exactly when the response is a success (a
`created` storage outcome) and the threat level qualifies; a `SAFE`
ingestion and every error response (including the `409` duplicate)
hand over nothing. -/
def broadcastSpec (req : UploadRequest) (o : UploadOutcome) : Prop :=
  (o.broadcasts ≠ [] ↔
    ((∃ b, o.response = .ok b) ∧ req.threat_level ∈ qualifyingLevels)) ∧
  (req.threat_level = "SAFE" → o.broadcasts = []) ∧
  (∀ code detail, o.response = .err code detail → o.broadcasts = [])

/-! ### Concrete sample values used by witnesses -/

def mdW : Metadata := ⟨"cam1", "obj-1", "orig.jpg", "image/jpeg", 3, none, none⟩

def envW : StoreEnv := ⟨"tok", 10, "t10", true, none, 7⟩

def collW : Collection := ⟨true, []⟩

def docW : DetectionDoc := storedDoc "weapon" "knife" "HIGH" mdW envW

def collW1 : Collection := ⟨true, [docW]⟩

def raceDocW : DetectionDoc :=
  ⟨99, "http://x/r.jpg", "r-orig.jpg", "uploads/r.jpg", "weapon", "gun",
   "HIGH", 5, "cam2", "obj-1", "image/jpeg", 2, none, none⟩

def reqW : UploadRequest :=
  ⟨⟨"a.jpg", "image/jpeg", [1, 2, 3]⟩, "weapon", "knife", "HIGH", "cam1",
   "obj-1", none, none⟩

def envRaceW : StoreEnv := ⟨"tok", 10, "t10", true, some raceDocW, 7⟩

def reqBadCT : UploadRequest :=
  ⟨⟨"a.txt", "text/plain", [1]⟩, "weapon", "knife", "HIGH", "cam1",
   "obj-1", none, none⟩

def reqEmptyW : UploadRequest :=
  ⟨⟨"a.jpg", "image/jpeg", []⟩, "weapon", "knife", "HIGH", "cam1",
   "obj-1", none, none⟩

/-! ## Supporting lemmas -/

theorem fsRead_fsWrite (fs : FS) (p : String) (b : Bytes) :
    fsRead (fsWrite fs p b) p = some b := by
  induction fs with
  | nil => simp [fsRead, fsWrite]
  | cons e rest ih =>
    by_cases h : e.1 = p
    · simp only [fsRead, fsWrite, List.filter_cons] at ih ⊢
      simp [h, ih]
    · simp only [fsRead, fsWrite, List.filter_cons] at ih ⊢
      simp [h, ih]

/-- On a successful insert, the collection gains exactly the inserted
document and its key was fresh. -/
theorem insert_one_inserted {c c2 : Collection} {d : DetectionDoc}
    (h : c.insert_one d = .inserted c2) :
    c2.docs = c.docs ++ [d] ∧ c2.reachable = c.reachable ∧
      ∀ x ∈ c.docs, x.unique_object_id ≠ d.unique_object_id := by
  unfold Collection.insert_one at h
  by_cases hre : c.reachable = true
  · rw [if_pos hre] at h
    by_cases hany : c.docs.any (fun x => x.unique_object_id == d.unique_object_id)
    · rw [if_pos hany] at h; cases h
    · rw [if_neg hany] at h
      cases h
      refine ⟨rfl, rfl, ?_⟩
      intro x hx hcontra
      exact hany (List.any_eq_true.mpr ⟨x, hx, by simp [hcontra]⟩)
  · simp [hre] at h

theorem applyRace_reachable (c : Collection) (r : Option DetectionDoc) :
    (applyRace c r).reachable = c.reachable := by
  cases r with
  | none => rfl
  | some d =>
    cases hins : c.insert_one d with
    | inserted c2 =>
      have h2 := (insert_one_inserted hins).2.1
      simp [applyRace, hins, h2]
    | duplicateKey => simp [applyRace, hins]
    | connFailure e => simp [applyRace, hins]

/-- `applyRace` leaves the documents alone or appends one fresh-keyed
document. -/
theorem applyRace_docs (c : Collection) (r : Option DetectionDoc) :
    (applyRace c r).docs = c.docs ∨
      ∃ d, (applyRace c r).docs = c.docs ++ [d] ∧
        ∀ x ∈ c.docs, x.unique_object_id ≠ d.unique_object_id := by
  cases r with
  | none => exact Or.inl rfl
  | some d =>
    cases hins : c.insert_one d with
    | inserted c2 =>
      obtain ⟨h1, _, h3⟩ := insert_one_inserted hins
      exact Or.inr ⟨d, by simp [applyRace, hins, h1], h3⟩
    | duplicateKey => exact Or.inl (by simp [applyRace, hins])
    | connFailure e => exact Or.inl (by simp [applyRace, hins])

/-! Lemmas about the broadcast pass. -/

theorem sendPass_fst {C : Type} [DecidableEq C] (fails : C → Bool) (l : List C) :
    (ConnectionManager.sendPass fails l).1 = l.filter (fun c => !fails c) := by
  induction l with
  | nil => rfl
  | cons c rest ih =>
    cases h : fails c <;>
      simp [ConnectionManager.sendPass, h, ih, List.filter_cons]

theorem sendPass_snd {C : Type} [DecidableEq C] (fails : C → Bool) (l : List C) :
    (ConnectionManager.sendPass fails l).2 = l.filter fails := by
  induction l with
  | nil => rfl
  | cons c rest ih =>
    cases h : fails c <;>
      simp [ConnectionManager.sendPass, h, ih, List.filter_cons]

theorem prune_cons {C : Type} [DecidableEq C] :
    ∀ (dr l : List C) (c : C), (∀ x ∈ dr, x ≠ c) →
      ConnectionManager.prune (c :: l) dr = c :: ConnectionManager.prune l dr := by
  intro dr
  induction dr with
  | nil => intro l c _; rfl
  | cons x dr ih =>
    intro l c h
    have hxc : x ≠ c := h x (List.mem_cons_self x dr)
    have hrest : ∀ y ∈ dr, y ≠ c := fun y hy => h y (List.mem_cons_of_mem x hy)
    simp only [ConnectionManager.prune, List.foldl_cons]
    by_cases hx : x ∈ l
    · have hmem : x ∈ c :: l := List.mem_cons_of_mem c hx
      rw [if_pos hmem, if_pos hx,
        List.erase_cons_tail (by simpa using hxc.symm)]
      exact ih (l.erase x) c hrest
    · have hmem : x ∉ c :: l := by simp [hxc, hx]
      rw [if_neg hmem, if_neg hx]
      exact ih l c hrest

theorem prune_filter {C : Type} [DecidableEq C] (l : List C) (fails : C → Bool) :
    ConnectionManager.prune l (l.filter fails) = l.filter (fun c => !fails c) := by
  induction l with
  | nil => rfl
  | cons c rest ih =>
    rw [List.filter_cons, List.filter_cons]
    cases h : fails c
    · rw [if_neg (by simp), if_pos (by simp)]
      have hfresh : ∀ x ∈ rest.filter fails, x ≠ c := by
        intro x hx hxc
        subst hxc
        have hmem := List.of_mem_filter hx
        rw [h] at hmem
        cases hmem
      rw [prune_cons (rest.filter fails) rest c hfresh, ih]
    · rw [if_pos rfl, if_neg (by simp)]
      simp only [ConnectionManager.prune, List.foldl_cons]
      rw [if_pos (List.mem_cons_self c rest), List.erase_cons_head]
      exact ih

/-- Claim C4 — For every live-subscriber set and every subset F of its
channels whose send fails, `broadcast` delivers the message to every
channel not in F (the delivered list is exactly the non-failing members,
in order, so one channel's failure never prevents or aborts delivery to
another), and after the pass exactly the channels in F have been removed
from the live set. -/
theorem broadcast_partial_failure {C : Type} [DecidableEq C]
    (live : List C) (fails : C → Bool) :
    (ConnectionManager.broadcast live fails).1 =
        live.filter (fun c => !fails c) ∧
    (ConnectionManager.broadcast live fails).2 =
        live.filter (fun c => !fails c) ∧
    (∀ ch, ch ∈ (ConnectionManager.broadcast live fails).2 ↔
        (ch ∈ live ∧ fails ch = false)) := by
  refine ⟨?_, ?_, ?_⟩
  · simp [ConnectionManager.broadcast, sendPass_fst]
  · simp [ConnectionManager.broadcast, sendPass_snd, prune_filter]
  · intro ch
    simp [ConnectionManager.broadcast, sendPass_snd, prune_filter,
      List.mem_filter, Bool.not_eq_true']

/-- Claim C7, counterexample — `disconnect` on a channel that is not in
the live set does not succeed: it raises `ValueError` (Python's
`list.remove`), both on an empty live set and when called a second time
for a channel already removed. -/
theorem disconnect_absent_raises :
    ConnectionManager.disconnect ([] : List Nat) 0 =
        Except.error "list.remove(x): x not in list" ∧
    (ConnectionManager.disconnect ([0] : List Nat) 0).bind
        (fun l => ConnectionManager.disconnect l 0) =
      Except.error "list.remove(x): x not in list" := by
  constructor
  · simp [ConnectionManager.disconnect]
  · simp [ConnectionManager.disconnect, Except.bind]

/-- Claim C7, amended — `disconnect` removes the first occurrence of
the channel when the channel is in the live set; on a channel that is
not in the live set it raises `ValueError` instead of succeeding, so
`disconnect` is not idempotent. -/
theorem disconnect_amended (live : List Nat) (c : Nat) :
    (c ∈ live →
      ConnectionManager.disconnect live c = Except.ok (live.erase c)) ∧
    (c ∉ live →
      ConnectionManager.disconnect live c =
        Except.error "list.remove(x): x not in list") := by
  constructor <;> intro h <;> simp [ConnectionManager.disconnect, h]

/-- Witness for C7's amended theorem at concrete inputs. -/
theorem disconnect_amended_witness :
    ConnectionManager.disconnect ([5] : List Nat) 5 =
        Except.ok (([5] : List Nat).erase 5) ∧
    ConnectionManager.disconnect ([5] : List Nat) 7 =
        Except.error "list.remove(x): x not in list" :=
  ⟨(disconnect_amended [5] 5).1 (by decide),
   (disconnect_amended [5] 7).2 (by decide)⟩

theorem store_image_precheck_dup (c : Collection) (fs : FS) (bytes : Bytes)
    (ot cat tl : String) (md : Metadata) (env : StoreEnv) (ex : DetectionDoc)
    (hre : c.reachable = true) (huid : ¬ md.unique_object_id = "")
    (hex : c.docs.find? (fun d => d.unique_object_id == md.unique_object_id) =
      some ex) :
    store_image (some c) fs bytes ot cat tl (some md) env =
      ⟨.ok ⟨ex.image_url, ex.filename, ex.docId, "duplicate",
        "Object " ++ md.unique_object_id ++ " already exists in database"⟩,
       some c, fs⟩ := by
  simp [store_image, Collection.find_one, hre, huid, hex]

theorem store_image_success (c : Collection) (fs : FS) (bytes : Bytes)
    (ot cat tl : String) (md : Metadata) (env : StoreEnv) (c2 : Collection)
    (hre : c.reachable = true) (huid : ¬ md.unique_object_id = "")
    (hnone : c.docs.find? (fun d => d.unique_object_id == md.unique_object_id) =
      none)
    (hw : env.writeOk = true)
    (hins : (applyRace c env.race).insert_one (storedDoc ot cat tl md env) =
      .inserted c2) :
    store_image (some c) fs bytes ot cat tl (some md) env =
      ⟨.ok ⟨genImageUrl ot cat env.token, genFilename ot cat env.token,
        env.newDocId, "success", "New detection stored successfully"⟩,
       some c2, fsWrite fs (genFilepath ot cat env.token) bytes⟩ := by
  simp [store_image, Collection.find_one, hre, huid, hnone, hw, hins]

theorem store_image_race_dup (c : Collection) (fs : FS) (bytes : Bytes)
    (ot cat tl : String) (md : Metadata) (env : StoreEnv) (ex : DetectionDoc)
    (hre : c.reachable = true) (huid : ¬ md.unique_object_id = "")
    (hnone : c.docs.find? (fun d => d.unique_object_id == md.unique_object_id) =
      none)
    (hw : env.writeOk = true)
    (hdup : (applyRace c env.race).insert_one (storedDoc ot cat tl md env) =
      .duplicateKey)
    (hex : (applyRace c env.race).docs.find?
      (fun d => d.unique_object_id == md.unique_object_id) = some ex) :
    store_image (some c) fs bytes ot cat tl (some md) env =
      ⟨.ok ⟨ex.image_url, ex.filename, ex.docId, "duplicate",
        "Duplicate unique_object_id: " ++ md.unique_object_id⟩,
       some (applyRace c env.race),
       fsRemove (fsWrite fs (genFilepath ot cat env.token) bytes)
         (genFilepath ot cat env.token)⟩ := by
  simp [store_image, Collection.find_one, hre, huid, hnone, hw, hdup, hex,
    applyRace_reachable]

/-- Claim C9 — On every successful `created` ingestion, `store_image`
writes the submitted image bytes to the blob file byte-for-byte: the
bytes stored at the returned storage path are exactly the submitted
bytes, with no transformation applied. -/
theorem stored_bytes_identical (collOpt : Option Collection) (fs : FS)
    (bytes : Bytes) (ot cat tl : String) (metadata : Option Metadata)
    (env : StoreEnv) (res : StoreResult)
    (h : (store_image collOpt fs bytes ot cat tl metadata env).result =
      .ok res)
    (hs : res.status = "success") :
    fsRead (store_image collOpt fs bytes ot cat tl metadata env).fs
      (UPLOADS_DIR ++ "/" ++ res.filename) = some bytes := by
  cases metadata with
  | none => simp [store_image] at h
  | some md =>
    by_cases huid : md.unique_object_id = ""
    · simp [store_image, huid] at h
    · cases collOpt with
      | none => simp [store_image, huid] at h
      | some c =>
        cases hre : c.reachable with
        | false => simp [store_image, Collection.find_one, hre, huid] at h
        | true =>
          cases hex : c.docs.find?
              (fun d => d.unique_object_id == md.unique_object_id) with
          | some ex =>
            rw [store_image_precheck_dup c fs bytes ot cat tl md env ex hre
              huid hex] at h
            simp only [Except.ok.injEq] at h
            rw [← h] at hs
            simp at hs
          | none =>
            cases hw : env.writeOk with
            | false =>
              simp [store_image, Collection.find_one, hre, huid, hex, hw] at h
            | true =>
              cases hins : (applyRace c env.race).insert_one
                  (storedDoc ot cat tl md env) with
              | inserted c2 =>
                rw [store_image_success c fs bytes ot cat tl md env c2 hre
                  huid hex hw hins] at h ⊢
                simp only [Except.ok.injEq] at h
                rw [← h]
                simp only [genFilepath]
                exact fsRead_fsWrite fs
                  (UPLOADS_DIR ++ "/" ++ genFilename ot cat env.token) bytes
              | duplicateKey =>
                cases hex2 : (applyRace c env.race).docs.find?
                    (fun d => d.unique_object_id == md.unique_object_id) with
                | some ex2 =>
                  rw [store_image_race_dup c fs bytes ot cat tl md env ex2 hre
                    huid hex hw hins hex2] at h
                  simp only [Except.ok.injEq] at h
                  rw [← h] at hs
                  simp at hs
                | none =>
                  simp [store_image, Collection.find_one, hre, huid, hex, hw,
                    hins, hex2, applyRace_reachable] at h
              | connFailure e =>
                simp [store_image, Collection.find_one, hre, huid, hex, hw,
                  hins] at h

/-- Witness for C9 at a concrete ingestion. -/
theorem stored_bytes_identical_witness :
    fsRead (store_image (some collW) [] [1, 2, 3] "weapon" "knife" "HIGH"
        (some mdW) envW).fs
      (UPLOADS_DIR ++ "/" ++
        (⟨genImageUrl "weapon" "knife" "tok", genFilename "weapon" "knife" "tok",
          7, "success", "New detection stored successfully"⟩ :
          StoreResult).filename) = some [1, 2, 3] :=
  stored_bytes_identical (some collW) [] [1, 2, 3] "weapon" "knife" "HIGH"
    (some mdW) envW _ (by rfl) (by rfl)

theorem fsRemove_fsWrite_fresh (fs : FS) (p : String) (b : Bytes)
    (hfresh : fs.find? (fun e => e.1 == p) = none) :
    fsRemove (fsWrite fs p b) p = fs := by
  unfold fsRemove fsWrite
  have h1 : fs.filter (fun e => e.1 != p) = fs := by
    apply List.filter_eq_self.mpr
    intro a ha
    have h2 := List.find?_eq_none.mp hfresh a ha
    simpa using h2
  rw [List.filter_append, h1, h1]
  simp

/-- Claim C2 — With a record for key k already stored, `store_image`
returns a `duplicate` result carrying the canonical record's
`image_url`, `filename` and `document_id`, inserts nothing, and keeps
no new bytes: on the pre-check fast path the uploads directory is
untouched, and when the record appeared only between the pre-check and
`insert_one` (a lost race), the just-written blob is removed again, so
the uploads directory ends unchanged. -/
theorem store_image_duplicate_semantics (c : Collection) (fs : FS)
    (bytes : Bytes) (ot cat tl : String) (md : Metadata) (env : StoreEnv)
    (hre : c.reachable = true) (huid : ¬ md.unique_object_id = "") :
    (∀ ex, c.docs.find?
        (fun d => d.unique_object_id == md.unique_object_id) = some ex →
      store_image (some c) fs bytes ot cat tl (some md) env =
        ⟨.ok ⟨ex.image_url, ex.filename, ex.docId, "duplicate",
          "Object " ++ md.unique_object_id ++ " already exists in database"⟩,
         some c, fs⟩) ∧
    (∀ r, c.docs.find?
        (fun d => d.unique_object_id == md.unique_object_id) = none →
      env.race = some r → r.unique_object_id = md.unique_object_id →
      env.writeOk = true →
      fs.find? (fun e => e.1 == genFilepath ot cat env.token) = none →
      store_image (some c) fs bytes ot cat tl (some md) env =
        ⟨.ok ⟨r.image_url, r.filename, r.docId, "duplicate",
          "Duplicate unique_object_id: " ++ md.unique_object_id⟩,
         some ⟨c.reachable, c.docs ++ [r]⟩, fs⟩) := by
  constructor
  · intro ex hex
    exact store_image_precheck_dup c fs bytes ot cat tl md env ex hre huid hex
  · intro r hnone hrace hruid hw hfresh
    have hall : ∀ x ∈ c.docs,
        ¬(x.unique_object_id == md.unique_object_id) = true :=
      List.find?_eq_none.mp hnone
    have hins_r : c.insert_one r = .inserted ⟨c.reachable, c.docs ++ [r]⟩ := by
      have hany : c.docs.any
          (fun x => x.unique_object_id == r.unique_object_id) = false := by
        rw [hruid]
        rw [List.any_eq_false]
        intro x hx
        exact hall x hx
      simp [Collection.insert_one, hre, hany]
    have hcoll1 : applyRace c env.race = ⟨c.reachable, c.docs ++ [r]⟩ := by
      rw [hrace]
      simp [applyRace, hins_r]
    have hdup : (applyRace c env.race).insert_one
        (storedDoc ot cat tl md env) = .duplicateKey := by
      rw [hcoll1]
      have hany : ((⟨c.reachable, c.docs ++ [r]⟩ : Collection)).docs.any
          (fun x => x.unique_object_id ==
            (storedDoc ot cat tl md env).unique_object_id) = true := by
        apply List.any_eq_true.mpr
        refine ⟨r, by simp, ?_⟩
        simp [storedDoc, hruid]
      simp [Collection.insert_one, hre, hany]
    have hex2 : (applyRace c env.race).docs.find?
        (fun d => d.unique_object_id == md.unique_object_id) = some r := by
      rw [hcoll1]
      show (c.docs ++ [r]).find? _ = some r
      rw [List.find?_append, hnone]
      simp [hruid]
    rw [store_image_race_dup c fs bytes ot cat tl md env r hre huid hnone hw
      hdup hex2]
    rw [fsRemove_fsWrite_fresh fs _ bytes hfresh, hcoll1]

/-- Witness for C2 at concrete stores: the pre-check fast path on a
store already holding the key, and a lost insertion race on an empty
store. -/
theorem store_image_duplicate_semantics_witness :
    store_image (some collW1) [] [9, 9] "weapon" "knife" "HIGH" (some mdW)
        envW =
      ⟨.ok ⟨docW.image_url, docW.filename, docW.docId, "duplicate",
        "Object " ++ mdW.unique_object_id ++ " already exists in database"⟩,
       some collW1, []⟩ ∧
    store_image (some collW) [] [1, 2, 3] "weapon" "knife" "HIGH" (some mdW)
        envRaceW =
      ⟨.ok ⟨raceDocW.image_url, raceDocW.filename, raceDocW.docId,
        "duplicate", "Duplicate unique_object_id: " ++ mdW.unique_object_id⟩,
       some ⟨collW.reachable, collW.docs ++ [raceDocW]⟩, []⟩ :=
  ⟨(store_image_duplicate_semantics collW1 [] [9, 9] "weapon" "knife" "HIGH"
      mdW envW rfl (by decide)).1 docW (by decide),
   (store_image_duplicate_semantics collW [] [1, 2, 3] "weapon" "knife" "HIGH"
      mdW envRaceW rfl (by decide)).2 raceDocW (by decide) rfl rfl rfl
     (by decide)⟩

/-- Claim C3 — `upload_detection` hands an `AlertEvent` to the
broadcaster iff the storage outcome is `created` (success response) and
the threat level is one of MEDIUM, HIGH, CRITICAL; a SAFE ingestion
hands over nothing, and every error response — in particular the `409`
duplicate answer, whatever the canonical record's severity — hands over
nothing. -/
theorem upload_broadcast_exactly_on_created (req : UploadRequest)
    (env : StoreEnv) (coll : Option Collection) (fs : FS) (sys : SystemState) :
    broadcastSpec req (upload_detection req env coll fs sys) := by
  simp only [upload_detection]
  split
  · simp [broadcastSpec]
  · split
    · simp [broadcastSpec]
    · split
      · simp [broadcastSpec]
      · split
        · simp [broadcastSpec]
        · split
          · rename_i hq
            refine ⟨?_, ?_, ?_⟩
            · simp [hq]
            · intro hsafe
              rw [hsafe] at hq
              exact absurd hq (by decide)
            · intro code detail hresp
              cases hresp
          · rename_i hq
            refine ⟨?_, ?_, ?_⟩
            · simp [hq]
            · intro _; rfl
            · intro _ _ _; rfl

/-! Lemmas towards the one-record-per-key invariant. -/

theorem uids_nodup_append {l : List DetectionDoc} {d : DetectionDoc}
    (h : (l.map (fun x => x.unique_object_id)).Nodup) (hf : freshKey l d) :
    ((l ++ [d]).map (fun x => x.unique_object_id)).Nodup := by
  rw [List.map_append, List.nodup_append]
  refine ⟨h, List.nodup_singleton _, ?_⟩
  intro a ha hb
  obtain ⟨x, hx, rfl⟩ := List.mem_map.mp ha
  simp only [List.map_cons, List.map_nil, List.mem_singleton] at hb
  exact hf x hx hb

/-- Every branch of `store_image` leaves the stored documents either
untouched, extended by one fresh-keyed record (the concurrent racer's
or this call's), or extended by the racer's record and then this
call's, each fresh at its own insertion time. -/
theorem store_image_docs_cases (c : Collection) (fs : FS) (bytes : Bytes)
    (ot cat tl : String) (metadata : Option Metadata) (env : StoreEnv) :
    ∃ c2, (store_image (some c) fs bytes ot cat tl metadata env).coll =
        some c2 ∧
      c2.reachable = c.reachable ∧
      (c2.docs = c.docs ∨
       (∃ d, c2.docs = c.docs ++ [d] ∧ freshKey c.docs d) ∨
       (∃ r d, c2.docs = (c.docs ++ [r]) ++ [d] ∧ freshKey c.docs r ∧
          freshKey (c.docs ++ [r]) d)) := by
  cases metadata with
  | none => exact ⟨c, rfl, rfl, Or.inl rfl⟩
  | some md =>
    by_cases huid : md.unique_object_id = ""
    · refine ⟨c, ?_, rfl, Or.inl rfl⟩
      simp [store_image, huid]
    · cases hre : c.reachable with
      | false =>
        refine ⟨c, ?_, hre, Or.inl rfl⟩
        simp [store_image, Collection.find_one, hre, huid]
      | true =>
        cases hex : c.docs.find?
            (fun d => d.unique_object_id == md.unique_object_id) with
        | some ex =>
          refine ⟨c, ?_, hre, Or.inl rfl⟩
          rw [store_image_precheck_dup c fs bytes ot cat tl md env ex hre
            huid hex]
        | none =>
          cases hw : env.writeOk with
          | false =>
            refine ⟨c, ?_, hre, Or.inl rfl⟩
            simp [store_image, Collection.find_one, hre, huid, hex, hw]
          | true =>
            have hrace := applyRace_docs c env.race
            have hracere := applyRace_reachable c env.race
            cases hins : (applyRace c env.race).insert_one
                (storedDoc ot cat tl md env) with
            | inserted c2 =>
              obtain ⟨hdocs, hre2, hfresh⟩ := insert_one_inserted hins
              refine ⟨c2, ?_, by rw [hre2, hracere]; exact hre, ?_⟩
              · rw [store_image_success c fs bytes ot cat tl md env c2 hre
                  huid hex hw hins]
              · cases hrace with
                | inl h1 =>
                  refine Or.inr (Or.inl ⟨storedDoc ot cat tl md env, ?_, ?_⟩)
                  · rw [hdocs, h1]
                  · intro x hx
                    exact hfresh x (h1 ▸ hx)
                | inr h1 =>
                  obtain ⟨r, hr, hrf⟩ := h1
                  refine Or.inr (Or.inr
                    ⟨r, storedDoc ot cat tl md env, ?_, hrf, ?_⟩)
                  · rw [hdocs, hr]
                  · intro x hx
                    exact hfresh x (hr ▸ hx)
            | duplicateKey =>
              cases hex2 : (applyRace c env.race).docs.find?
                  (fun d => d.unique_object_id == md.unique_object_id) with
              | some ex2 =>
                refine ⟨applyRace c env.race, ?_, hracere.trans hre, ?_⟩
                · rw [store_image_race_dup c fs bytes ot cat tl md env ex2
                    hre huid hex hw hins hex2]
                · cases hrace with
                  | inl h1 => exact Or.inl h1
                  | inr h1 =>
                    obtain ⟨r, hr, hrf⟩ := h1
                    exact Or.inr (Or.inl ⟨r, hr, hrf⟩)
              | none =>
                refine ⟨applyRace c env.race, ?_, hracere.trans hre, ?_⟩
                · simp [store_image, Collection.find_one, hre, huid, hex, hw,
                    hins, hex2, applyRace_reachable]
                · cases hrace with
                  | inl h1 => exact Or.inl h1
                  | inr h1 =>
                    obtain ⟨r, hr, hrf⟩ := h1
                    exact Or.inr (Or.inl ⟨r, hr, hrf⟩)
            | connFailure e =>
              refine ⟨applyRace c env.race, ?_, hracere.trans hre, ?_⟩
              · simp [store_image, Collection.find_one, hre, huid, hex, hw,
                  hins]
              · cases hrace with
                | inl h1 => exact Or.inl h1
                | inr h1 =>
                  obtain ⟨r, hr, hrf⟩ := h1
                  exact Or.inr (Or.inl ⟨r, hr, hrf⟩)

/-- The collection `upload_detection` leaves behind is either the one
it was given (validation failed before any storage call) or the one
`store_image` leaves behind. -/
theorem upload_detection_coll (req : UploadRequest) (env : StoreEnv)
    (coll : Option Collection) (fs : FS) (sys : SystemState) :
    (upload_detection req env coll fs sys).coll = coll ∨
    (upload_detection req env coll fs sys).coll =
      (store_image coll fs req.image.payload req.object_type req.category
        req.threat_level (some (uploadMetadata req)) env).coll := by
  simp only [upload_detection]
  split
  · exact Or.inl rfl
  · split
    · exact Or.inl rfl
    · split
      · exact Or.inr rfl
      · split
        · exact Or.inr rfl
        · split <;> exact Or.inr rfl

/-- Claim C1 — At most one `DetectionRecord` per `object_key`, for the
lifetime of the store: every core operation leaves the stored records
unchanged or appends fresh-keyed records (one for this call, at most
one more for the concurrent racer the environment may interleave), no
record is ever updated or deleted (the old list is always a prefix of
the new one), and key distinctness is preserved.  This holds for every
environment, including the races that defeat the find-based pre-check:
only the insert-time exclusivity check decides. -/
theorem core_ops_one_record_per_key (op : CoreOp) (s : AppState)
    (c : Collection) (hcoll : s.coll = some c) (hnd : UidsNodup c) :
    ∃ c2, (op.apply s).coll = some c2 ∧ UidsNodup c2 ∧
      List.IsPrefix c.docs c2.docs ∧
      (c2.docs = c.docs ∨
       (∃ d, c2.docs = c.docs ++ [d] ∧ freshKey c.docs d) ∨
       (∃ r d, c2.docs = (c.docs ++ [r]) ++ [d] ∧ freshKey c.docs r ∧
          freshKey (c.docs ++ [r]) d)) := by
  have assemble : ∀ c2 : Collection,
      (c2.docs = c.docs ∨
       (∃ d, c2.docs = c.docs ++ [d] ∧ freshKey c.docs d) ∨
       (∃ r d, c2.docs = (c.docs ++ [r]) ++ [d] ∧ freshKey c.docs r ∧
          freshKey (c.docs ++ [r]) d)) →
      UidsNodup c2 ∧ List.IsPrefix c.docs c2.docs := by
    intro c2 hcases
    rcases hcases with h1 | ⟨d, h1, hf⟩ | ⟨r, d, h1, hrf, hf⟩
    · refine ⟨?_, ?_⟩
      · show (c2.docs.map _).Nodup
        rw [h1]
        exact hnd
      · rw [h1]
    · refine ⟨?_, ?_⟩
      · show (c2.docs.map _).Nodup
        rw [h1]
        exact uids_nodup_append hnd hf
      · rw [h1]
        exact ⟨[d], rfl⟩
    · refine ⟨?_, ?_⟩
      · show (c2.docs.map _).Nodup
        rw [h1]
        exact uids_nodup_append (uids_nodup_append hnd hrf) hf
      · rw [h1, List.append_assoc]
        exact ⟨[r] ++ [d], rfl⟩
  cases op with
  | upload req env =>
    cases upload_detection_coll req env s.coll s.fs s.sys with
    | inl h =>
      refine ⟨c, ?_, hnd, List.prefix_refl _, Or.inl rfl⟩
      simp only [CoreOp.apply]
      rw [h, hcoll]
    | inr h =>
      rw [hcoll] at h
      obtain ⟨c2, hc2, _, hcases⟩ := store_image_docs_cases c s.fs
        req.image.payload req.object_type req.category req.threat_level
        (some (uploadMetadata req)) env
      obtain ⟨hnd2, hpre⟩ := assemble c2 hcases
      refine ⟨c2, ?_, hnd2, hpre, hcases⟩
      simp only [CoreOp.apply]
      rw [hcoll, h, hc2]
  | heartbeat nowIso =>
    refine ⟨c, ?_, hnd, List.prefix_refl _, Or.inl rfl⟩
    simp only [CoreOp.apply]
    exact hcoll
  | statusQuery now =>
    exact ⟨c, hcoll, hnd, List.prefix_refl _, Or.inl rfl⟩
  | listDetections ot tl limit skip =>
    exact ⟨c, hcoll, hnd, List.prefix_refl _, Or.inl rfl⟩
  | statsQuery =>
    exact ⟨c, hcoll, hnd, List.prefix_refl _, Or.inl rfl⟩
  | alertsQuery limit skip =>
    exact ⟨c, hcoll, hnd, List.prefix_refl _, Or.inl rfl⟩

/-- Witness for C1: a concrete upload against the empty store. -/
theorem core_ops_one_record_per_key_witness :
    ∃ c2, ((CoreOp.upload reqW envW).apply
        ⟨some collW, [], initSystemState 0⟩).coll = some c2 ∧
      UidsNodup c2 ∧ List.IsPrefix collW.docs c2.docs ∧
      (c2.docs = collW.docs ∨
       (∃ d, c2.docs = collW.docs ++ [d] ∧ freshKey collW.docs d) ∨
       (∃ r d, c2.docs = (collW.docs ++ [r]) ++ [d] ∧ freshKey collW.docs r ∧
          freshKey (collW.docs ++ [r]) d)) :=
  core_ops_one_record_per_key (.upload reqW envW)
    ⟨some collW, [], initSystemState 0⟩ collW rfl
    (by simp [UidsNodup, collW])

/-! Lemmas about the heartbeat state. -/

/-- Every branch of the handler, accepting or rejecting, keeps the
heartbeat update performed on entry. -/
theorem upload_detection_sys (req : UploadRequest) (env : StoreEnv)
    (coll : Option Collection) (fs : FS) (sys : SystemState) :
    (upload_detection req env coll fs sys).sys =
      update_frame_timestamp env.nowIso sys := by
  simp only [upload_detection]
  split
  · rfl
  · split
    · rfl
    · split
      · rfl
      · split
        · rfl
        · split <;> rfl

theorem apply_preserves_ai_running (op : CoreOp) (s : AppState)
    (h : s.sys.ai_running = true) : (op.apply s).sys.ai_running = true := by
  cases op with
  | upload req env =>
    simp only [CoreOp.apply]
    rw [upload_detection_sys]
    rfl
  | heartbeat nowIso => rfl
  | statusQuery now => exact h
  | listDetections ot tl limit skip => exact h
  | statsQuery => exact h
  | alertsQuery limit skip => exact h

theorem applyOps_preserves_ai_running (ops : List CoreOp) (s : AppState)
    (h : s.sys.ai_running = true) :
    (applyOps ops s).sys.ai_running = true := by
  induction ops generalizing s with
  | nil => exact h
  | cons op rest ih => exact ih _ (apply_preserves_ai_running op s h)

/-- Claim C10 — `ai_running` is monotone over the process lifetime: it
starts `false`, an ingestion attempt (the upload handler) or a
heartbeat probe (`update_frame_timestamp`) sets it `true`, no core
operation ever resets it, and after one ingestion attempt the status
query reports `ai_running = true` after any further operation sequence,
however stale `last_frame_time` becomes. -/
theorem ai_running_monotone_lifetime :
    (∀ t, (initSystemState t).ai_running = false) ∧
    (∀ nowIso sys, (update_frame_timestamp nowIso sys).ai_running = true) ∧
    (∀ op s, s.sys.ai_running = true →
      (CoreOp.apply op s).sys.ai_running = true) ∧
    (∀ req env s,
      (CoreOp.apply (.upload req env) s).sys.ai_running = true) ∧
    (∀ ops req env s now,
      (get_system_status now
        (applyOps ops (CoreOp.apply (.upload req env) s)).sys).ai_running =
        true) := by
  have hupload : ∀ (req : UploadRequest) (env : StoreEnv) (s : AppState),
      (CoreOp.apply (.upload req env) s).sys.ai_running = true := by
    intro req env s
    simp only [CoreOp.apply]
    rw [upload_detection_sys]
    rfl
  refine ⟨fun t => rfl, fun n sys => rfl, apply_preserves_ai_running,
    hupload, ?_⟩
  intro ops req env s now
  simp only [get_system_status]
  exact applyOps_preserves_ai_running ops _ (hupload req env s)

/-- Witness for C10's hypotheses at concrete states. -/
theorem ai_running_monotone_lifetime_witness :
    (initSystemState 0).ai_running = false ∧
    (CoreOp.apply (.statusQuery 3)
        ⟨none, [], ⟨true, none, 0⟩⟩).sys.ai_running = true ∧
    (get_system_status 5 (applyOps [CoreOp.statsQuery]
        (CoreOp.apply (.upload reqW envW)
          ⟨some collW, [], initSystemState 0⟩)).sys).ai_running = true :=
  ⟨ai_running_monotone_lifetime.1 0,
   ai_running_monotone_lifetime.2.2.1 (.statusQuery 3)
     ⟨none, [], ⟨true, none, 0⟩⟩ rfl,
   ai_running_monotone_lifetime.2.2.2.2 [CoreOp.statsQuery] reqW envW
     ⟨some collW, [], initSystemState 0⟩ 5⟩

/-- Claim C8, counterexample — a submission with a non-image content
type is rejected with a 400 validation error, yet the heartbeat state
observable through the status query has already been changed before the
validation decision: `update_frame_timestamp` runs first in the
handler, flipping `ai_running` and stamping `last_frame_time`. -/
theorem validation_side_effect_cex :
    (upload_detection reqBadCT envW (some collW) []
        (initSystemState 0)).response = .err 400 "File must be an image" ∧
    (initSystemState 0).ai_running = false ∧
    (upload_detection reqBadCT envW (some collW) []
        (initSystemState 0)).sys.ai_running = true ∧
    get_system_status 5 (upload_detection reqBadCT envW (some collW) []
        (initSystemState 0)).sys ≠
      get_system_status 5 (initSystemState 0) := by
  refine ⟨by decide, rfl, by decide, by decide⟩

/-- Claim C8, amended — an empty payload or a non-image content type is
rejected with a 400 validation error, and a missing required form field
(in particular the object key) is rejected by the framework with a 422
before the handler runs; in every such case no blob is written, no
record is inserted and no alert is handed over.  However, for the two
in-handler rejections the heartbeat state has already been updated
before validation; only the framework-level 422 leaves all state,
including the heartbeat, untouched. -/
theorem validation_rejects_amended (req : UploadRequest) (env : StoreEnv)
    (coll : Option Collection) (fs : FS) (sys : SystemState) :
    (¬ strStartsWith req.image.content_type "image/" = true →
      upload_detection req env coll fs sys =
        ⟨.err 400 "File must be an image", coll, fs,
         update_frame_timestamp env.nowIso sys, []⟩) ∧
    (strStartsWith req.image.content_type "image/" = true →
      req.image.payload = [] →
      upload_detection req env coll fs sys =
        ⟨.err 400 "Empty image file", coll, fs,
         update_frame_timestamp env.nowIso sys, []⟩) ∧
    (∀ img ot cat tl cid conf loc,
      upload_endpoint img ot cat tl cid none conf loc env coll fs sys =
        ⟨.err 422 "field required", coll, fs, sys, []⟩) := by
  refine ⟨?_, ?_, ?_⟩
  · intro h
    simp [upload_detection, h]
  · intro h hp
    simp [upload_detection, h, hp]
  · intro img ot cat tl cid conf loc
    cases img <;> cases ot <;> cases cat <;> cases tl <;> cases cid <;> rfl

/-- Witness for C8's amended theorem at concrete rejected submissions. -/
theorem validation_rejects_amended_witness :
    upload_detection reqBadCT envW (some collW) [] (initSystemState 0) =
      ⟨.err 400 "File must be an image", some collW, [],
       update_frame_timestamp envW.nowIso (initSystemState 0), []⟩ ∧
    upload_detection reqEmptyW envW (some collW) [] (initSystemState 0) =
      ⟨.err 400 "Empty image file", some collW, [],
       update_frame_timestamp envW.nowIso (initSystemState 0), []⟩ ∧
    upload_endpoint (some ⟨"a.jpg", "image/jpeg", [1]⟩) (some "weapon")
        (some "knife") (some "HIGH") (some "cam1") none none none envW
        (some collW) [] (initSystemState 0) =
      ⟨.err 422 "field required", some collW, [], initSystemState 0, []⟩ :=
  ⟨(validation_rejects_amended reqBadCT envW (some collW) []
      (initSystemState 0)).1 (by decide),
   (validation_rejects_amended reqEmptyW envW (some collW) []
      (initSystemState 0)).2.1 (by decide) rfl,
   (validation_rejects_amended reqW envW (some collW) []
      (initSystemState 0)).2.2 (some ⟨"a.jpg", "image/jpeg", [1]⟩)
     (some "weapon") (some "knife") (some "HIGH") (some "cam1") none none⟩

/-! Lemmas about the query layer. -/

theorem exceptOkBind {e a b : Type} (x : a) (f : a → Except e b) :
    (Except.ok x : Except e a) >>= f = f x := rfl

theorem exceptErrorBind {e a b : Type} (msg : e) (f : a → Except e b) :
    (Except.error msg : Except e a) >>= f = .error msg := rfl

theorem exceptPureEq {e a : Type} (x : a) :
    (pure x : Except e a) = .ok x := rfl

theorem exceptMapOk {e a b : Type} (f : a → b) (x : a) :
    (Except.ok x : Except e a).map f = .ok (f x) := rfl

theorem exceptMapError {e a b : Type} (f : a → b) (msg : e) :
    (Except.error msg : Except e a).map f = .error msg := rfl

theorem fetchLoop_ok (c : Collection) (q : String → DetectionDoc → Bool)
    (hre : c.reachable = true) :
    ∀ (page : List String) (acc : List DetectionDoc),
      fetchLoop c q page acc =
        .ok (acc ++ page.filterMap (fun u => latestDoc (c.docs.filter (q u)))) := by
  intro page
  induction page with
  | nil => intro acc; simp [fetchLoop]
  | cons u rest ih =>
    intro acc
    simp only [fetchLoop]
    rw [show c.find_one_latest (q u) =
      .ok (latestDoc (c.docs.filter (q u))) from by
        simp [Collection.find_one_latest, hre]]
    cases hd : latestDoc (c.docs.filter (q u)) with
    | none => simp [ih, List.filterMap_cons, hd]
    | some d => simp [ih, List.filterMap_cons, hd]

/-- The value `get_detections_core` computes over a reachable store. -/
theorem get_detections_core_eq (c : Collection) (ot tl : Option String)
    (limit skip : Nat) (hre : c.reachable = true) :
    get_detections_core c ot tl limit skip =
      .ok (((((c.docs.filter (matchesFilter ot tl)).map
            (fun d => d.unique_object_id)).dedup).drop skip).take limit
          |>.filterMap (fun u => latestDoc (c.docs.filter
            (fun d => matchesFilter ot tl d && d.unique_object_id == u))),
        (((c.docs.filter (matchesFilter ot tl)).map
            (fun d => d.unique_object_id)).dedup).length) := by
  simp only [get_detections_core]
  rw [show c.distinct (matchesFilter ot tl) =
    .ok (((c.docs.filter (matchesFilter ot tl)).map
      (fun d => d.unique_object_id)).dedup) from by
      simp [Collection.distinct, hre]]
  simp [exceptOkBind, exceptPureEq, fetchLoop_ok c _ hre]

/-- The value `get_alerts_core` computes over a reachable store. -/
theorem get_alerts_core_eq (c : Collection) (limit skip : Nat)
    (hre : c.reachable = true) :
    get_alerts_core c limit skip =
      .ok (((((c.docs.filter alertsFilter).map
            (fun d => d.unique_object_id)).dedup).drop skip).take limit
          |>.filterMap (fun u => latestDoc (c.docs.filter
            (fun d => alertsFilter d && d.unique_object_id == u))),
        (((c.docs.filter alertsFilter).map
            (fun d => d.unique_object_id)).dedup).length) := by
  simp only [get_alerts_core]
  rw [show c.distinct alertsFilter =
    .ok (((c.docs.filter alertsFilter).map
      (fun d => d.unique_object_id)).dedup) from by
      simp [Collection.distinct, hre]]
  simp [exceptOkBind, exceptPureEq, fetchLoop_ok c _ hre]

theorem get_detection_stats_core_ok (c : Collection)
    (hre : c.reachable = true) :
    ∃ r, get_detection_stats_core c = .ok r ∧ r.error = none := by
  cases h : get_detection_stats_core c with
  | error e =>
    exfalso
    revert h
    simp [get_detection_stats_core, Collection.distinct, hre, exceptMapOk,
      exceptOkBind, exceptPureEq]
  | ok r =>
    refine ⟨r, rfl, ?_⟩
    revert h
    simp only [get_detection_stats_core, Collection.distinct, hre, if_true,
      exceptMapOk, exceptOkBind, exceptPureEq]
    intro h
    simp only [Except.ok.injEq] at h
    rw [← h]

/-- Claim C5 — When the backing store is unreachable (collection handle
absent, or the MongoDB client raising on every call) nothing degrades
silently: `store_image` raises, so the ingestion handler answers a
`500` server error, and each query route answers the empty body with an
explicit `error` message, never the plain empty-store answer; over a
reachable store the query routes never set the `error` field, so the
two answers are always distinguishable. -/
theorem storage_unavailable_fails_closed (fs : FS) (bytes : Bytes)
    (ot cat tl : String) (md : Metadata) (env : StoreEnv) (c : Collection)
    (otq tlq : Option String) (limit skip : Nat)
    (huid : ¬ md.unique_object_id = "") :
    (store_image none fs bytes ot cat tl (some md) env =
      ⟨.error "Detections collection not available", none, fs⟩) ∧
    (c.reachable = false →
      store_image (some c) fs bytes ot cat tl (some md) env =
        ⟨.error "ConnectionFailure", some c, fs⟩) ∧
    (∀ (req : UploadRequest) (sys : SystemState),
      strStartsWith req.image.content_type "image/" = true →
      req.image.payload ≠ [] →
      ∃ msg, (upload_detection req env none fs sys).response = .err 500 msg) ∧
    (get_detections none otq tlq limit skip =
      ⟨[], 0, some "Database not available"⟩) ∧
    (c.reachable = false →
      get_detections (some c) otq tlq limit skip =
        ⟨[], 0, some "ConnectionFailure"⟩) ∧
    (get_detection_stats none =
      ⟨0, 0, 0, 0, 0, 0, 0, 0, 0, some "Database not available"⟩) ∧
    (c.reachable = false →
      (get_detection_stats (some c)).error = some "ConnectionFailure") ∧
    (get_alerts none limit skip = ⟨[], 0, some "Database not available"⟩) ∧
    (c.reachable = false →
      get_alerts (some c) limit skip = ⟨[], 0, some "ConnectionFailure"⟩) ∧
    (c.reachable = true →
      (get_detections (some c) otq tlq limit skip).error = none ∧
      (get_detection_stats (some c)).error = none ∧
      (get_alerts (some c) limit skip).error = none) := by
  refine ⟨?_, ?_, ?_, rfl, ?_, rfl, ?_, rfl, ?_, ?_⟩
  · simp [store_image, huid]
  · intro h
    simp [store_image, Collection.find_one, huid, h]
  · intro req sys hct hpay
    have hlen : ¬ req.image.payload.length = 0 := by
      simpa using hpay
    by_cases huid2 : req.unique_object_id = ""
    · refine ⟨"Error processing upload: unique_object_id is required in metadata", ?_⟩
      have hst : store_image none fs req.image.payload req.object_type
          req.category req.threat_level (some (uploadMetadata req)) env =
          ⟨.error "unique_object_id is required in metadata", none, fs⟩ := by
        simp [store_image, uploadMetadata, huid2]
      simp [upload_detection, hct, hlen, hst]
    · refine ⟨"Error processing upload: Detections collection not available", ?_⟩
      have hst : store_image none fs req.image.payload req.object_type
          req.category req.threat_level (some (uploadMetadata req)) env =
          ⟨.error "Detections collection not available", none, fs⟩ := by
        simp [store_image, uploadMetadata, huid2]
      simp [upload_detection, hct, hlen, hst]
  · intro h
    simp [get_detections, get_detections_core, Collection.distinct, h,
      exceptErrorBind]
  · intro h
    simp [get_detection_stats, get_detection_stats_core, Collection.distinct,
      h, exceptMapError, exceptErrorBind]
  · intro h
    simp [get_alerts, get_alerts_core, Collection.distinct, h,
      exceptErrorBind]
  · intro h
    refine ⟨?_, ?_, ?_⟩
    · simp [get_detections, get_detections_core_eq c otq tlq limit skip h]
    · obtain ⟨r, hr, he⟩ := get_detection_stats_core_ok c h
      simp [get_detection_stats, hr, he]
    · simp [get_alerts, get_alerts_core_eq c limit skip h]

/-- Witness for C5 at a concrete unreachable and a concrete reachable
store. -/
theorem storage_unavailable_fails_closed_witness :
    (store_image none [] [1, 2, 3] "weapon" "knife" "HIGH" (some mdW) envW =
      ⟨.error "Detections collection not available", none, []⟩) ∧
    (store_image (some ⟨false, []⟩) [] [1, 2, 3] "weapon" "knife" "HIGH"
        (some mdW) envW =
      ⟨.error "ConnectionFailure", some ⟨false, []⟩, []⟩) ∧
    (∃ msg, (upload_detection reqW envW none []
        (initSystemState 0)).response = .err 500 msg) ∧
    (get_detections (some ⟨false, []⟩) none none 100 0 =
      ⟨[], 0, some "ConnectionFailure"⟩) ∧
    ((get_detections (some collW1) none none 100 0).error = none) :=
  have h := storage_unavailable_fails_closed [] [1, 2, 3] "weapon" "knife"
    "HIGH" mdW envW ⟨false, []⟩ none none 100 0 (by decide)
  have h2 := storage_unavailable_fails_closed [] [1, 2, 3] "weapon" "knife"
    "HIGH" mdW envW collW1 none none 100 0 (by decide)
  ⟨h.1, h.2.1 rfl,
   h.2.2.1 reqW (initSystemState 0) (by decide) (by decide),
   h.2.2.2.2.1 rfl,
   (h2.2.2.2.2.2.2.2.2.2 rfl).1⟩

/-! Lemmas about `latestDoc` (the sort-by-timestamp `find_one`). -/

theorem latestDoc_eq_none : ∀ {l : List DetectionDoc},
    latestDoc l = none → l = [] := by
  intro l h
  cases l with
  | nil => rfl
  | cons d r =>
    simp only [latestDoc] at h
    cases hr : latestDoc r with
    | none => simp only [hr] at h; cases h
    | some m =>
      simp only [hr] at h
      by_cases hgt : m.timestamp > d.timestamp
      · rw [if_pos hgt] at h; cases h
      · rw [if_neg hgt] at h; cases h

theorem latestDoc_mem : ∀ {l : List DetectionDoc} {d : DetectionDoc},
    latestDoc l = some d → d ∈ l := by
  intro l
  induction l with
  | nil => intro d h; cases h
  | cons y rest ih =>
    intro d h
    simp only [latestDoc] at h
    cases hr : latestDoc rest with
    | none =>
      simp only [hr] at h
      cases h
      exact List.mem_cons_self y rest
    | some m =>
      simp only [hr] at h
      by_cases hgt : m.timestamp > y.timestamp
      · rw [if_pos hgt] at h
        cases h
        exact List.mem_cons_of_mem y (ih hr)
      · rw [if_neg hgt] at h
        cases h
        exact List.mem_cons_self y rest

theorem latestDoc_max : ∀ {l : List DetectionDoc} {d : DetectionDoc},
    latestDoc l = some d → ∀ x ∈ l, x.timestamp ≤ d.timestamp := by
  intro l
  induction l with
  | nil => intro d _ x hx; cases hx
  | cons y rest ih =>
    intro d h x hx
    simp only [latestDoc] at h
    cases hr : latestDoc rest with
    | none =>
      simp only [hr] at h
      cases h
      have hrest := latestDoc_eq_none hr
      rcases List.mem_cons.mp hx with rfl | hx2
      · exact Nat.le_refl _
      · rw [hrest] at hx2; cases hx2
    | some m =>
      simp only [hr] at h
      by_cases hgt : m.timestamp > y.timestamp
      · rw [if_pos hgt] at h
        cases h
        rcases List.mem_cons.mp hx with rfl | hx2
        · exact Nat.le_of_lt hgt
        · exact ih hr x hx2
      · rw [if_neg hgt] at h
        cases h
        rcases List.mem_cons.mp hx with rfl | hx2
        · exact Nat.le_refl _
        · exact Nat.le_trans (ih hr x hx2) (Nat.le_of_not_lt hgt)

/-- The per-key fetch produces exactly one document per selected key,
in order: the key's latest matching document. -/
theorem filterMap_latest_spec (c : Collection) (p : DetectionDoc → Bool) :
    ∀ (page : List String),
      (∀ u ∈ page, ∃ x, x ∈ c.docs ∧ p x = true ∧ x.unique_object_id = u) →
      ((page.filterMap (fun u => latestDoc (c.docs.filter
          (fun d => p d && d.unique_object_id == u)))).map
        (fun d => d.unique_object_id) = page ∧
       ∀ d ∈ page.filterMap (fun u => latestDoc (c.docs.filter
          (fun d => p d && d.unique_object_id == u))),
         d ∈ c.docs ∧ p d = true ∧
         ∀ x ∈ c.docs, p x = true →
           x.unique_object_id = d.unique_object_id →
           x.timestamp ≤ d.timestamp) := by
  intro page
  induction page with
  | nil =>
    intro _
    exact ⟨rfl, by intro d hd; cases hd⟩
  | cons u rest ih =>
    intro hp
    obtain ⟨x0, hx0mem, hx0p, hx0uid⟩ := hp u (List.mem_cons_self u rest)
    have hx0f : x0 ∈ c.docs.filter
        (fun d => p d && d.unique_object_id == u) := by
      exact List.mem_filter.mpr ⟨hx0mem, by simp [hx0p, hx0uid]⟩
    obtain ⟨d0, hd0⟩ : ∃ d0, latestDoc (c.docs.filter
        (fun d => p d && d.unique_object_id == u)) = some d0 := by
      cases hl : latestDoc (c.docs.filter
          (fun d => p d && d.unique_object_id == u)) with
      | none =>
        rw [latestDoc_eq_none hl] at hx0f
        cases hx0f
      | some d0 => exact ⟨d0, rfl⟩
    have hd0f := List.mem_filter.mp (latestDoc_mem hd0)
    have hd0in : d0 ∈ c.docs := hd0f.1
    have hd0p : p d0 = true := by
      have h2 := hd0f.2
      simp only [Bool.and_eq_true] at h2
      exact h2.1
    have hd0uid : d0.unique_object_id = u := by
      have h2 := hd0f.2
      simp only [Bool.and_eq_true, beq_iff_eq] at h2
      exact h2.2
    obtain ⟨ihmap, ihprops⟩ := ih (fun v hv => hp v (List.mem_cons_of_mem u hv))
    constructor
    · simp only [List.filterMap_cons, hd0, List.map_cons, ihmap, hd0uid]
    · intro d hd
      simp only [List.filterMap_cons, hd0] at hd
      rcases List.mem_cons.mp hd with rfl | hd2
      · refine ⟨hd0in, hd0p, ?_⟩
        intro x hx hpx hxuid
        apply latestDoc_max hd0
        refine List.mem_filter.mpr ⟨hx, ?_⟩
        simp [hpx, hxuid, hd0uid]
      · exact ihprops d hd2

/-- Claim C6 — Over a reachable store, `get_detections` computes the
distinct keys matching the filters, pages that key set with `skip` and
`limit`, returns exactly one document per selected key — the latest by
timestamp among that key's matching documents — reports `total` as the
number of distinct matching keys (not the page size), and never
represents a key twice. -/
theorem get_detections_dedup (c : Collection) (ot tl : Option String)
    (limit skip : Nat) (hre : c.reachable = true) :
    (get_detections (some c) ot tl limit skip).total =
      (((c.docs.filter (matchesFilter ot tl)).map
        (fun d => d.unique_object_id)).dedup).length ∧
    ((get_detections (some c) ot tl limit skip).detections.map
        (fun d => d.unique_object_id)) =
      ((((c.docs.filter (matchesFilter ot tl)).map
        (fun d => d.unique_object_id)).dedup).drop skip).take limit ∧
    ((get_detections (some c) ot tl limit skip).detections.map
        (fun d => d.unique_object_id)).Nodup ∧
    (∀ d ∈ (get_detections (some c) ot tl limit skip).detections,
      d ∈ c.docs ∧ matchesFilter ot tl d = true ∧
      ∀ x ∈ c.docs, matchesFilter ot tl x = true →
        x.unique_object_id = d.unique_object_id →
        x.timestamp ≤ d.timestamp) := by
  have hresp : get_detections (some c) ot tl limit skip =
      ⟨(((((c.docs.filter (matchesFilter ot tl)).map
          (fun d => d.unique_object_id)).dedup).drop skip).take limit
        |>.filterMap (fun u => latestDoc (c.docs.filter
          (fun d => matchesFilter ot tl d && d.unique_object_id == u)))),
       (((c.docs.filter (matchesFilter ot tl)).map
          (fun d => d.unique_object_id)).dedup).length, none⟩ := by
    simp [get_detections, get_detections_core_eq c ot tl limit skip hre]
  have hpage : ∀ u ∈ ((((c.docs.filter (matchesFilter ot tl)).map
      (fun d => d.unique_object_id)).dedup).drop skip).take limit,
      ∃ x, x ∈ c.docs ∧ matchesFilter ot tl x = true ∧
        x.unique_object_id = u := by
    intro u hu
    have hu2 : u ∈ ((c.docs.filter (matchesFilter ot tl)).map
        (fun d => d.unique_object_id)).dedup :=
      (List.drop_sublist skip _).subset ((List.take_sublist limit _).subset hu)
    have hu3 := List.mem_dedup.mp hu2
    obtain ⟨x, hx, hxu⟩ := List.mem_map.mp hu3
    have hx2 := List.mem_filter.mp hx
    exact ⟨x, hx2.1, hx2.2, hxu⟩
  obtain ⟨hmap, hprops⟩ := filterMap_latest_spec c (matchesFilter ot tl) _ hpage
  have hnodup : ((((c.docs.filter (matchesFilter ot tl)).map
      (fun d => d.unique_object_id)).dedup).drop skip).take limit |>.Nodup :=
    ((List.take_sublist limit _).nodup
      ((List.drop_sublist skip _).nodup (List.nodup_dedup _)))
  rw [hresp]
  refine ⟨rfl, hmap, ?_, hprops⟩
  show ((((((c.docs.filter (matchesFilter ot tl)).map
      (fun d => d.unique_object_id)).dedup).drop skip).take limit
    |>.filterMap (fun u => latestDoc (c.docs.filter
      (fun d => matchesFilter ot tl d && d.unique_object_id == u)))).map
    (fun d => d.unique_object_id)).Nodup
  rw [hmap]
  exact hnodup

/-- Witness for C6 at a concrete store holding one record. -/
theorem get_detections_dedup_witness :
    (get_detections (some collW1) none none 100 0).total =
      (((collW1.docs.filter (matchesFilter none none)).map
        (fun d => d.unique_object_id)).dedup).length ∧
    ((get_detections (some collW1) none none 100 0).detections.map
        (fun d => d.unique_object_id)) =
      ((((collW1.docs.filter (matchesFilter none none)).map
        (fun d => d.unique_object_id)).dedup).drop 0).take 100 ∧
    ((get_detections (some collW1) none none 100 0).detections.map
        (fun d => d.unique_object_id)).Nodup ∧
    (∀ d ∈ (get_detections (some collW1) none none 100 0).detections,
      d ∈ collW1.docs ∧ matchesFilter none none d = true ∧
      ∀ x ∈ collW1.docs, matchesFilter none none x = true →
        x.unique_object_id = d.unique_object_id →
        x.timestamp ≤ d.timestamp) :=
  get_detections_dedup collW1 none none 100 0 rfl

end ThreatApp